import Mathlib

/-!
Verification of the redoxfs resource layer (src/mount/redox/resource.rs) and the
FUSE adapter (fuse/main.rs). Machine integers (u64 / usize / i64) are embedded as
Nat / Int with explicit reduction modulo 2^64 wherever Rust arithmetic wraps, and
`as` casts are embedded as two's-complement reinterpretation. Fallible operations
return Except with the errno as a Nat. The filesystem engine (redoxfs::FileSystem)
is external to the translated files; resource operations take the engine calls
they perform as explicit function arguments.
-/

namespace RedoxFS

/-- Modulus of 64-bit machine words (u64 and usize on the 64-bit targets redoxfs runs on). -/
def M : Nat := 2 ^ 64

/-- Errno value EIO (Redox uses the Linux errno numbering). -/
def EIO : Nat := 5

/-- Errno value EBADF. -/
def EBADF : Nat := 9

/-- Errno value EISDIR. -/
def EISDIR : Nat := 21

/-- Errno value EINVAL. -/
def EINVAL : Nat := 22

/-- Flag constant O_RDONLY from the external syscall crate. -/
def O_RDONLY : Nat := 0x10000

/-- Flag constant O_WRONLY from the external syscall crate. -/
def O_WRONLY : Nat := 0x20000

/-- Flag constant O_RDWR from the external syscall crate. -/
def O_RDWR : Nat := 0x30000

/-- Flag mask O_ACCMODE = O_RDONLY | O_WRONLY | O_RDWR from the external syscall crate. -/
def O_ACCMODE : Nat := 0x30000

/-- Bit pattern of the Rust expression `! O_ACCMODE` on usize: complement within 64 bits. -/
def NOT_ACCMODE : Nat := (M - 1) ^^^ O_ACCMODE

/-- Fcntl command F_GETFL. -/
def F_GETFL : Nat := 3

/-- Fcntl command F_SETFL. -/
def F_SETFL : Nat := 4

/-- Seek whence SEEK_SET. -/
def SEEK_SET : Nat := 0

/-- Seek whence SEEK_CUR. -/
def SEEK_CUR : Nat := 1

/-- Seek whence SEEK_END. -/
def SEEK_END : Nat := 2

/-- Reinterpretation of a u64 / usize bit pattern as an i64 (Rust `as i64`). -/
def toI64 (n : Nat) : Int :=
  if n % M < 2 ^ 63 then (n % M : Int) else (n % M : Int) - (M : Int)

/-- Wrapping of an unbounded integer into i64 two's complement (release-mode overflow
of Rust i64 addition). -/
def wrapI64 (x : Int) : Int := (x + 2 ^ 63) % (M : Int) - 2 ^ 63

/-- Wrapping u64 addition. -/
def u64add (a b : Nat) : Nat := (a + b) % M

/-- Wrapping u64 subtraction. -/
def u64sub (a b : Nat) : Nat := (a % M + M - b % M) % M

/-- Extent record: a contiguous run described by a start block and a length in bytes. -/
structure Extent where
  start : Nat
  length : Nat
deriving DecidableEq

/-- Modelled from the spec: the node record of §6 (the node module of the repository
is not under src/). Only the fields that the translated files read or write are kept;
the name is kept in its host-decoded String form. -/
structure Node where
  name : String
  mode : Nat
  uid : Nat
  gid : Nat
  ctime : Nat
  ctime_nsec : Nat
  mtime : Nat
  mtime_nsec : Nat
  parent : Nat
  next : Nat
  extents : List Extent
deriving DecidableEq

/-- Mode bits marking a file node. -/
def Node.MODE_FILE : Nat := 0x8000

/-- Mode bits marking a directory node. -/
def Node.MODE_DIR : Nat := 0x4000

/-- Modelled from the spec: a node is a directory when its mode carries the directory
type bits (§3: nodes are strongly typed by mode as directory or file). -/
def Node.is_dir (n : Node) : Bool := n.mode &&& 0xF000 == Node.MODE_DIR

/-- TimeSpec from the external syscall crate: tv_sec is i64, tv_nsec is i32. -/
structure TimeSpec where
  tv_sec : Int
  tv_nsec : Int
deriving DecidableEq

/-- Directory resource handle: path, node block, optional materialized listing, and
a seek cursor (usize). -/
structure DirResource where
  path : String
  block : Nat
  data : Option (List Nat)
  seek : Nat
deriving DecidableEq

/-- Constructor DirResource::new: the seek cursor starts at 0. -/
def DirResource.new (path : String) (block : Nat) (data : Option (List Nat)) :
    DirResource :=
  { path := path, block := block, data := data, seek := 0 }

/-- DirResource::dup clones every field. -/
def DirResource.dup (r : DirResource) : DirResource :=
  { path := r.path, block := r.block, data := r.data, seek := r.seek }

/-- Byte-copy loop of DirResource::read: copy from data starting at the cursor while
the buffer has room and data remains; returns the bytes written and the final cursor. -/
def copyFromData (data : List Nat) (seek room : Nat) : List Nat × Nat :=
  match room with
  | 0 => ([], seek)
  | r + 1 =>
    match data.get? seek with
    | some b =>
      let rest := copyFromData data (seek + 1) r
      (b :: rest.1, rest.2)
    | none => ([], seek)

/-- DirResource::read: EISDIR when data is absent; otherwise copy from data at the
cursor into the buffer of length bufLen, returning the count, the bytes written and
the updated handle. -/
def DirResource.read (r : DirResource) (bufLen : Nat) :
    Except Nat (Nat × List Nat × DirResource) :=
  match r.data with
  | none => .error EISDIR
  | some data =>
    let c := copyFromData data r.seek bufLen
    .ok (c.1.length, c.1, { r with seek := c.2 })

/-- DirResource::write always fails with EBADF. -/
def DirResource.write (r : DirResource) (_bufLen : Nat) : Except Nat Nat × DirResource :=
  (.error EBADF, r)

/-- DirResource::seek (named lseek here because the record field is called seek):
EBADF when data is absent; otherwise the cursor is clamped into [0, data.len()] with
isize arithmetic; an unknown whence yields EINVAL and leaves the cursor unchanged. -/
def DirResource.lseek (r : DirResource) (offset whence : Nat) :
    Except Nat Nat × DirResource :=
  match r.data with
  | none => (.error EBADF, r)
  | some data =>
    let len : Int := toI64 data.length
    if whence = SEEK_SET then
      let s := (max 0 (min len (toI64 offset))).toNat
      (.ok s, { r with seek := s })
    else if whence = SEEK_CUR then
      let s := (max 0 (min len (wrapI64 (toI64 r.seek + toI64 offset)))).toNat
      (.ok s, { r with seek := s })
    else if whence = SEEK_END then
      let s := (max 0 (min len (wrapI64 (len + toI64 offset)))).toNat
      (.ok s, { r with seek := s })
    else
      (.error EINVAL, r)

/-- DirResource::fcntl always fails with EBADF. -/
def DirResource.fcntl (r : DirResource) (_cmd _arg : Nat) : Except Nat Nat × DirResource :=
  (.error EBADF, r)

/-- File resource handle: path, node block, open flags, seek cursor (u64), owner uid. -/
structure FileResource where
  path : String
  block : Nat
  flags : Nat
  seek : Nat
  uid : Nat
deriving DecidableEq

/-- FileResource::dup clones every field. -/
def FileResource.dup (r : FileResource) : FileResource :=
  { path := r.path, block := r.block, flags := r.flags, seek := r.seek, uid := r.uid }

/-- FileResource::read: gated on the access mode; on success the engine call
fs.read_node (the function argument read_node, taking block, offset and buffer
length) supplies the count and the cursor advances by it with u64 wrapping. -/
def FileResource.read (r : FileResource) (bufLen : Nat)
    (read_node : Nat → Nat → Nat → Except Nat Nat) :
    Except Nat Nat × FileResource :=
  if r.flags &&& O_ACCMODE = O_RDWR ∨ r.flags &&& O_ACCMODE = O_RDONLY then
    match read_node r.block r.seek bufLen with
    | .ok count => (.ok count, { r with seek := (r.seek + count) % M })
    | .error e => (.error e, r)
  else
    (.error EBADF, r)

/-- FileResource::write: gated on the access mode; the wall clock (nowSec, nowNsec)
is passed to the engine call fs.write_node (the function argument write_node, taking
block, offset, buffer length, mtime seconds and nanoseconds); on success the cursor
advances by the returned count with u64 wrapping. -/
def FileResource.write (r : FileResource) (bufLen nowSec nowNsec : Nat)
    (write_node : Nat → Nat → Nat → Nat → Nat → Except Nat Nat) :
    Except Nat Nat × FileResource :=
  if r.flags &&& O_ACCMODE = O_RDWR ∨ r.flags &&& O_ACCMODE = O_WRONLY then
    match write_node r.block r.seek bufLen nowSec nowNsec with
    | .ok count => (.ok count, { r with seek := (r.seek + count) % M })
    | .error e => (.error e, r)
  else
    (.error EBADF, r)

/-- FileResource::seek (named lseek here because the record field is called seek):
the engine call fs.node_len supplies the size; each whence computes the new cursor
with i64 arithmetic, clamping only the negative results to 0; an unknown whence
yields EINVAL and leaves the cursor unchanged. -/
def FileResource.lseek (r : FileResource) (offset whence : Nat)
    (node_len : Nat → Except Nat Nat) :
    Except Nat Nat × FileResource :=
  match node_len r.block with
  | .error e => (.error e, r)
  | .ok size =>
    if whence = SEEK_SET then
      let s := (max 0 (toI64 offset)).toNat
      (.ok (s % M), { r with seek := s })
    else if whence = SEEK_CUR then
      let s := (max 0 (wrapI64 (toI64 r.seek + toI64 offset))).toNat
      (.ok (s % M), { r with seek := s })
    else if whence = SEEK_END then
      let s := (max 0 (wrapI64 (toI64 size + toI64 offset))).toNat
      (.ok (s % M), { r with seek := s })
    else
      (.error EINVAL, r)

/-- FileResource::fcntl: F_GETFL returns the flags; F_SETFL keeps the O_ACCMODE bits
and takes the remaining bits from the argument; other commands yield EINVAL. -/
def FileResource.fcntl (r : FileResource) (cmd arg : Nat) :
    Except Nat Nat × FileResource :=
  if cmd = F_GETFL then
    (.ok r.flags, r)
  else if cmd = F_SETFL then
    (.ok 0, { r with flags := (r.flags &&& O_ACCMODE) ||| (arg &&& NOT_ACCMODE) })
  else
    (.error EINVAL, r)

/-- FileResource::sync succeeds without engine action. -/
def FileResource.sync (r : FileResource) : Except Nat Nat × FileResource :=
  (.ok 0, r)

/-- FileResource::truncate: gated on the access mode; delegates to the engine call
fs.node_set_len (the function argument node_set_len). -/
def FileResource.truncate (r : FileResource) (len : Nat)
    (node_set_len : Nat → Nat → Except Nat Unit) :
    Except Nat Nat × FileResource :=
  if r.flags &&& O_ACCMODE = O_RDWR ∨ r.flags &&& O_ACCMODE = O_WRONLY then
    match node_set_len r.block len with
    | .ok _ => (.ok 0, r)
    | .error e => (.error e, r)
  else
    (.error EBADF, r)

/-- FileResource::path (named fpath here because the record field is called path):
copies min(buffer length, path length) bytes and returns that count. -/
def FileResource.fpath (r : FileResource) (bufLen : Nat) : Except Nat Nat × FileResource :=
  (.ok (min bufLen r.path.length), r)

/-- FileResource::utimens: the engine call fs.node (the function argument node_at)
supplies the node; permitted when the node's uid matches the handle's uid or the
handle's uid is 0; the second entry of times, when present, is written to the node
as mtime through the engine call fs.write_at (the function argument write_at); a
missing second entry is a silent success. -/
def FileResource.utimens (r : FileResource) (times : List TimeSpec)
    (node_at : Nat → Except Nat (Nat × Node))
    (write_at : Nat → Node → Except Nat Unit) :
    Except Nat Nat × FileResource :=
  match node_at r.block with
  | .error e => (.error e, r)
  | .ok node =>
    if node.2.uid = r.uid ∨ r.uid = 0 then
      match times.get? 1 with
      | some mtime =>
        let n := { node.2 with
                   mtime := (mtime.tv_sec % (M : Int)).toNat,
                   mtime_nsec := (mtime.tv_nsec % (2 ^ 32 : Int)).toNat }
        match write_at node.1 n with
        | .ok _ => (.ok 0, r)
        | .error e => (.error e, r)
      | none => (.ok 0, r)
    else
      (.error EBADF, r)

/-- Header fields of the superblock that the FUSE adapter reads. -/
structure Header where
  size : Nat
  root : Nat
  free : Nat
deriving DecidableEq

/-- Modelled from the spec: the filesystem engine redoxfs::FileSystem is not under
src/, so it is abstracted as the header pair (header block index, header record)
plus the engine operations of §4.2 and §4.4 that the FUSE adapter calls, taken as
state-read functions returning errno or their result (per §4.2 node reads decode a
block and fail only with I/O errors; they do not mutate the filesystem). -/
structure FileSystem where
  headerBlock : Nat
  header : Header
  node_at : Nat → Except Nat (Nat × Node)
  find_node : String → Nat → Except Nat (Nat × Node)
  child_nodes : Nat → Except Nat (List (Nat × Node))
  create_node : Nat → String → Nat → Except Nat (Nat × Node)
  node_len : Nat → Except Nat Nat

/-- RedoxFS::inode_block: block = root + ino - 1 in wrapping u64 arithmetic. -/
def FileSystem.inode_block (fs : FileSystem) (ino : Nat) : Nat :=
  u64sub (u64add fs.header.root ino) 1

/-- RedoxFS::block_inode: ino = block + 1 - root in wrapping u64 arithmetic. -/
def FileSystem.block_inode (fs : FileSystem) (block : Nat) : Nat :=
  u64sub (u64add block 1) fs.header.root

/-- File kind reported through FUSE. -/
inductive FileType where
  | Directory
  | RegularFile
deriving DecidableEq

/-- Attribute record replied through FUSE; timestamps are (sec, nsec) pairs. -/
structure FileAttr where
  ino : Nat
  size : Nat
  blocks : Nat
  atime : Nat × Nat
  mtime : Nat × Nat
  ctime : Nat × Nat
  crtime : Nat × Nat
  kind : FileType
  perm : Nat
  nlink : Nat
  uid : Nat
  gid : Nat
  rdev : Nat
  flags : Nat
deriving DecidableEq

/-- FUSE lookup: find the name under the parent block derived from ino and reply
with the child's attributes. -/
def FileSystem.lookup (fs : FileSystem) (ino : Nat) (name : String) :
    Except Nat FileAttr :=
  let parent_block := fs.inode_block ino
  match fs.find_node name parent_block with
  | .ok node =>
    .ok { ino := fs.block_inode node.1
          size := (node.2.extents.getD 0 ⟨0, 0⟩).length
          blocks := u64add (node.2.extents.getD 0 ⟨0, 0⟩).length 511 / 512
          atime := (0, 0), mtime := (0, 0), ctime := (0, 0), crtime := (0, 0)
          kind := if node.2.is_dir then FileType.Directory else FileType.RegularFile
          perm := 0o777, nlink := 1, uid := 0, gid := 0, rdev := 0, flags := 0 }
  | .error err => .error err

/-- FUSE getattr: read the node at the block derived from ino and reply with its
attributes; the filesystem state is passed through unchanged. -/
def FileSystem.getattr (fs : FileSystem) (ino : Nat) :
    Except Nat FileAttr × FileSystem :=
  (match fs.node_at (fs.inode_block ino) with
   | .ok node =>
     .ok { ino := fs.block_inode node.1
           size := (node.2.extents.getD 0 ⟨0, 0⟩).length
           blocks := u64add (node.2.extents.getD 0 ⟨0, 0⟩).length 511 / 512
           atime := (0, 0), mtime := (0, 0), ctime := (0, 0), crtime := (0, 0)
           kind := if node.2.is_dir then FileType.Directory else FileType.RegularFile
           perm := 0o777, nlink := 1, uid := 0, gid := 0, rdev := 0, flags := 0 }
   | .error err => .error err,
   fs)

/-- FUSE setattr: every argument is ignored (the source marks truncate as TODO);
the node is read back and its attributes replied, exactly as getattr does. -/
def FileSystem.setattr (fs : FileSystem) (ino : Nat)
    (_mode _uid _gid : Option Nat) (_size : Option Nat)
    (_atime _mtime : Option (Int × Int)) (_flags : Option Nat) :
    Except Nat FileAttr × FileSystem :=
  (match fs.node_at (fs.inode_block ino) with
   | .ok node =>
     .ok { ino := fs.block_inode node.1
           size := (node.2.extents.getD 0 ⟨0, 0⟩).length
           blocks := u64add (node.2.extents.getD 0 ⟨0, 0⟩).length 511 / 512
           atime := (0, 0), mtime := (0, 0), ctime := (0, 0), crtime := (0, 0)
           kind := if node.2.is_dir then FileType.Directory else FileType.RegularFile
           perm := 0o777, nlink := 1, uid := 0, gid := 0, rdev := 0, flags := 0 }
   | .error err => .error err,
   fs)

/-- FUSE create: create a MODE_FILE node under the parent block derived from ino
and reply with its attributes. -/
def FileSystem.create (fs : FileSystem) (ino : Nat) (name : String) :
    Except Nat FileAttr :=
  let parent_block := fs.inode_block ino
  match fs.create_node Node.MODE_FILE name parent_block with
  | .ok node =>
    .ok { ino := fs.block_inode node.1
          size := (node.2.extents.getD 0 ⟨0, 0⟩).length
          blocks := u64add (node.2.extents.getD 0 ⟨0, 0⟩).length 511 / 512
          atime := (0, 0), mtime := (0, 0), ctime := (0, 0), crtime := (0, 0)
          kind := if node.2.is_dir then FileType.Directory else FileType.RegularFile
          perm := 0o777, nlink := 1, uid := 0, gid := 0, rdev := 0, flags := 0 }
  | .error err => .error err

/-- FUSE mkdir: create a MODE_DIR node under the parent block derived from ino and
reply with its attributes. -/
def FileSystem.mkdir (fs : FileSystem) (ino : Nat) (name : String) :
    Except Nat FileAttr :=
  let parent_block := fs.inode_block ino
  match fs.create_node Node.MODE_DIR name parent_block with
  | .ok node =>
    .ok { ino := fs.block_inode node.1
          size := (node.2.extents.getD 0 ⟨0, 0⟩).length
          blocks := u64add (node.2.extents.getD 0 ⟨0, 0⟩).length 511 / 512
          atime := (0, 0), mtime := (0, 0), ctime := (0, 0), crtime := (0, 0)
          kind := if node.2.is_dir then FileType.Directory else FileType.RegularFile
          perm := 0o777, nlink := 1, uid := 0, gid := 0, rdev := 0, flags := 0 }
  | .error err => .error err

/-- Directory entry emitted by FUSE readdir. -/
structure DirEntry where
  ino : Nat
  offset : Nat
  kind : FileType
  name : String
deriving DecidableEq

/-- Child entries of readdir, numbered from the running offset i: each child is
reported with inode child.0 - header.0 in wrapping u64 arithmetic. -/
def readdirChildren (headerBlock i : Nat) : List (Nat × Node) → List DirEntry
  | [] => []
  | c :: rest =>
    { ino := u64sub c.1 headerBlock, offset := i
      kind := if c.2.is_dir then FileType.Directory else FileType.RegularFile
      name := c.2.name } :: readdirChildren headerBlock (i + 1) rest

/-- FUSE readdir: enumerate the children of the parent block derived from ino; at
offset 0 it emits "." and ".." (both with inode parent_block - header.0) followed by
the children; at any other offset it emits nothing. -/
def FileSystem.readdir (fs : FileSystem) (ino offset : Nat) :
    Except Nat (List DirEntry) :=
  let parent_block := fs.inode_block ino
  match fs.child_nodes parent_block with
  | .ok children =>
    if offset = 0 then
      .ok ({ ino := u64sub parent_block fs.headerBlock, offset := 0
             kind := FileType.Directory, name := "." } ::
           { ino := u64sub parent_block fs.headerBlock, offset := 1
             kind := FileType.Directory, name := ".." } ::
           readdirChildren fs.headerBlock 2 children)
    else
      .ok []
  | .error err => .error err

/-- Embedding of fn main of the FUSE binary: argument handling and messages. The
collaborators Image::open and redoxfs::FileSystem::open are the function arguments
imageOpen and fsOpen; fuse::mount prints nothing and is elided. The result is the
list of printed lines and the process exit status; Rust main returns unit on every
path, so the status is 0 throughout. -/
def mainRun (args : List String) (imageOpen : String → Except String Unit)
    (fsOpen : Except String Unit) : List String × Nat :=
  match args.get? 1 with
  | some path =>
    match imageOpen path with
    | .ok _ =>
      match fsOpen with
      | .ok _ =>
        match args.get? 2 with
        | some _ => (["redoxfs: opened filesystem " ++ path], 0)
        | none => (["redoxfs: opened filesystem " ++ path,
                    "redoxfs: no mount point provided"], 0)
      | .error err =>
        (["redoxfs: failed to open filesystem " ++ path ++ ": " ++ err], 0)
    | .error err =>
      (["redoxfs: failed to open image " ++ path ++ ": " ++ err], 0)
  | none => (["redoxfs: no disk image provided"], 0)

/-- One resource-layer operation on a file handle, carrying the engine responses it
consults; used to state invariants over arbitrary operation sequences. -/
inductive FileOp where
  | read (bufLen : Nat) (read_node : Nat → Nat → Nat → Except Nat Nat)
  | write (bufLen nowSec nowNsec : Nat)
      (write_node : Nat → Nat → Nat → Nat → Nat → Except Nat Nat)
  | lseek (offset whence : Nat) (node_len : Nat → Except Nat Nat)
  | fcntl (cmd arg : Nat)
  | truncate (len : Nat) (node_set_len : Nat → Nat → Except Nat Unit)
  | utimens (times : List TimeSpec) (node_at : Nat → Except Nat (Nat × Node))
      (write_at : Nat → Node → Except Nat Unit)
  | sync
  | fpath (bufLen : Nat)

/-- Handle state after one operation (the result is discarded; stat and dup take the
handle immutably and cannot change it, so they are omitted from the step). -/
def FileOp.apply (op : FileOp) (r : FileResource) : FileResource :=
  match op with
  | .read bufLen rn => (r.read bufLen rn).2
  | .write bufLen s ns wn => (r.write bufLen s ns wn).2
  | .lseek offset whence nl => (r.lseek offset whence nl).2
  | .fcntl cmd arg => (r.fcntl cmd arg).2
  | .truncate len nsl => (r.truncate len nsl).2
  | .utimens times na wa => (r.utimens times na wa).2
  | .sync => r.sync.2
  | .fpath bufLen => (r.fpath bufLen).2

/-- File node fixture used by the readdir counterexample. -/
def nodeA : Node :=
  { name := "a", mode := 0x8000, uid := 0, gid := 0, ctime := 0, ctime_nsec := 0,
    mtime := 0, mtime_nsec := 0, parent := 4, next := 0, extents := [⟨7, 10⟩] }

/-- File node fixture owned by uid 4, used by the utimens witness. -/
def nodeB : Node :=
  { name := "a", mode := 0x8000, uid := 4, gid := 0, ctime := 0, ctime_nsec := 0,
    mtime := 0, mtime_nsec := 0, parent := 1, next := 0, extents := [] }

/-- Filesystem fixture for the readdir counterexample: the header was read at block 2
and the root directory node sits at block 4 (the header records where the root is;
nothing ties it to the block right after the header). Its single child is the file
node at block 6. -/
def fsA : FileSystem :=
  { headerBlock := 2
    header := { size := 8192, root := 4, free := 5 }
    node_at := fun b => if b = 4 ∨ b = 6 then .ok (b, nodeA) else .error EIO
    find_node := fun _ _ => .error EIO
    child_nodes := fun b => if b = 4 then .ok [(6, nodeA)] else .error EIO
    create_node := fun _ _ _ => .error EIO
    node_len := fun _ => .ok 0 }

/-! Helper lemmas shared by the claim theorems. -/

theorem M_val : M = 18446744073709551616 := by norm_num [M]

theorem copyFromData_eq (n : Nat) (d : List Nat) (s : Nat) :
    copyFromData d s n = ((d.drop s).take n, s + min n (d.length - s)) := by
  induction n generalizing s with
  | zero => simp [copyFromData]
  | succ k ih =>
    by_cases h : s < d.length
    · have hd : d.drop s = d.get ⟨s, h⟩ :: d.drop (s + 1) := by
        rw [List.drop_eq_getElem_cons h]
        simp
      simp only [copyFromData, List.get?_eq_get h, ih, hd, List.take_succ_cons,
        Prod.mk.injEq]
      exact ⟨trivial, by omega⟩
    · have hget : d.get? s = none := List.get?_eq_none.mpr (by omega)
      have hd : d.drop s = [] := List.drop_eq_nil_of_le (by omega)
      simp only [copyFromData, hget, hd, List.take_nil, Prod.mk.injEq]
      exact ⟨trivial, by omega⟩

theorem setfl_keeps_accmode (f a : Nat) :
    ((f &&& O_ACCMODE) ||| (a &&& NOT_ACCMODE)) &&& O_ACCMODE = f &&& O_ACCMODE := by
  apply Nat.eq_of_testBit_eq
  intro i
  simp only [Nat.testBit_and, Nat.testBit_or, NOT_ACCMODE, Nat.testBit_xor, M,
    Nat.testBit_two_pow_sub_one]
  cases hA : Nat.testBit O_ACCMODE i with
  | false => simp
  | true =>
    have hge : 2 ^ i ≤ O_ACCMODE := Nat.testBit_implies_ge hA
    have hlt : O_ACCMODE < 2 ^ 64 := by norm_num [O_ACCMODE]
    have hi : i < 64 := by
      by_contra hc
      have h2 : (2 : Nat) ^ 64 ≤ 2 ^ i := Nat.pow_le_pow_right (by norm_num) (by omega)
      omega
    simp [hi]

theorem setfl_takes_rest (f a : Nat) :
    ((f &&& O_ACCMODE) ||| (a &&& NOT_ACCMODE)) &&& NOT_ACCMODE = a &&& NOT_ACCMODE := by
  apply Nat.eq_of_testBit_eq
  intro i
  simp only [Nat.testBit_and, Nat.testBit_or, NOT_ACCMODE, Nat.testBit_xor, M,
    Nat.testBit_two_pow_sub_one]
  cases hA : Nat.testBit O_ACCMODE i with
  | false =>
    cases hN : decide (i < 64) <;> cases Nat.testBit a i <;> cases Nat.testBit f i <;> simp
  | true =>
    have hge : 2 ^ i ≤ O_ACCMODE := Nat.testBit_implies_ge hA
    have hlt : O_ACCMODE < 2 ^ 64 := by norm_num [O_ACCMODE]
    have hi : i < 64 := by
      by_contra hc
      have h2 : (2 : Nat) ^ 64 ≤ 2 ^ i := Nat.pow_le_pow_right (by norm_num) (by omega)
      omega
    simp [hi]

theorem utimens_snd (r : FileResource) (times : List TimeSpec)
    (node_at : Nat → Except Nat (Nat × Node)) (write_at : Nat → Node → Except Nat Unit) :
    (FileResource.utimens r times node_at write_at).2 = r := by
  unfold FileResource.utimens
  cases node_at r.block with
  | error e => rfl
  | ok node =>
    dsimp only
    split
    · cases times.get? 1 with
      | none => rfl
      | some t =>
        dsimp only
        split <;> rfl
    · rfl

theorem fileOp_apply_flags (op : FileOp) (r : FileResource) :
    (FileOp.apply op r).flags &&& O_ACCMODE = r.flags &&& O_ACCMODE := by
  cases op with
  | read bufLen rn =>
    simp only [FileOp.apply, FileResource.read]
    split
    · cases rn r.block r.seek bufLen <;> simp
    · simp
  | write bufLen s ns wn =>
    simp only [FileOp.apply, FileResource.write]
    split
    · cases wn r.block r.seek bufLen s ns <;> simp
    · simp
  | lseek offset whence nl =>
    simp only [FileOp.apply, FileResource.lseek]
    cases nl r.block with
    | error e => simp
    | ok size =>
      dsimp only
      split
      · simp
      · split
        · simp
        · split <;> simp
  | fcntl cmd arg =>
    simp only [FileOp.apply, FileResource.fcntl]
    split
    · simp
    · split
      · simpa using setfl_keeps_accmode r.flags arg
      · simp
  | truncate len nsl =>
    simp only [FileOp.apply, FileResource.truncate]
    split
    · cases nsl r.block len <;> simp
    · simp
  | utimens times na wa =>
    simp only [FileOp.apply, utimens_snd]
  | sync => rfl
  | fpath bufLen => rfl

/-- C3: for every FileResource and every buffer, read delegates to the engine exactly
when flags & O_ACCMODE is O_RDONLY or O_RDWR and otherwise returns EBADF without
consulting the engine (the outcome is the same for any two engine functions); write
delegates exactly when the access mode is O_WRONLY or O_RDWR and otherwise returns
EBADF without consulting the engine; success is equivalent to being permitted and
the engine call succeeding. -/
theorem claim_C3_access_gating (r : FileResource) (bufLen nowSec nowNsec : Nat)
    (rn rn' : Nat → Nat → Nat → Except Nat Nat)
    (wn wn' : Nat → Nat → Nat → Nat → Nat → Except Nat Nat) :
    ((r.flags &&& O_ACCMODE = O_RDONLY ∨ r.flags &&& O_ACCMODE = O_RDWR) →
      (FileResource.read r bufLen rn).1 = rn r.block r.seek bufLen) ∧
    (¬(r.flags &&& O_ACCMODE = O_RDONLY ∨ r.flags &&& O_ACCMODE = O_RDWR) →
      FileResource.read r bufLen rn = (.error EBADF, r) ∧
      FileResource.read r bufLen rn = FileResource.read r bufLen rn') ∧
    ((∃ c, (FileResource.read r bufLen rn).1 = .ok c) ↔
      ((r.flags &&& O_ACCMODE = O_RDONLY ∨ r.flags &&& O_ACCMODE = O_RDWR) ∧
        ∃ c, rn r.block r.seek bufLen = .ok c)) ∧
    ((r.flags &&& O_ACCMODE = O_WRONLY ∨ r.flags &&& O_ACCMODE = O_RDWR) →
      (FileResource.write r bufLen nowSec nowNsec wn).1 =
        wn r.block r.seek bufLen nowSec nowNsec) ∧
    (¬(r.flags &&& O_ACCMODE = O_WRONLY ∨ r.flags &&& O_ACCMODE = O_RDWR) →
      FileResource.write r bufLen nowSec nowNsec wn = (.error EBADF, r) ∧
      FileResource.write r bufLen nowSec nowNsec wn =
        FileResource.write r bufLen nowSec nowNsec wn') ∧
    ((∃ c, (FileResource.write r bufLen nowSec nowNsec wn).1 = .ok c) ↔
      ((r.flags &&& O_ACCMODE = O_WRONLY ∨ r.flags &&& O_ACCMODE = O_RDWR) ∧
        ∃ c, wn r.block r.seek bufLen nowSec nowNsec = .ok c)) := by
  refine ⟨?_, ?_, ?_, ?_, ?_, ?_⟩
  · intro h
    unfold FileResource.read
    rw [if_pos (Or.symm h)]
    cases hv : rn r.block r.seek bufLen <;> simp [hv]
  · intro h
    unfold FileResource.read
    rw [if_neg (fun hc => h (Or.symm hc)), if_neg (fun hc => h (Or.symm hc))]
    exact ⟨rfl, rfl⟩
  · unfold FileResource.read
    by_cases h : r.flags &&& O_ACCMODE = O_RDWR ∨ r.flags &&& O_ACCMODE = O_RDONLY
    · rw [if_pos h]
      cases hv : rn r.block r.seek bufLen with
      | ok c => simp [hv, Or.symm h]
      | error e => simp [hv]
    · rw [if_neg h]
      simp only [Except.error.injEq]
      constructor
      · rintro ⟨c, hc⟩
        exact absurd hc (by simp)
      · rintro ⟨hperm, _⟩
        exact absurd (Or.symm hperm) h
  · intro h
    unfold FileResource.write
    rw [if_pos (Or.symm h)]
    cases hv : wn r.block r.seek bufLen nowSec nowNsec <;> simp [hv]
  · intro h
    unfold FileResource.write
    rw [if_neg (fun hc => h (Or.symm hc)), if_neg (fun hc => h (Or.symm hc))]
    exact ⟨rfl, rfl⟩
  · unfold FileResource.write
    by_cases h : r.flags &&& O_ACCMODE = O_RDWR ∨ r.flags &&& O_ACCMODE = O_WRONLY
    · rw [if_pos h]
      cases hv : wn r.block r.seek bufLen nowSec nowNsec with
      | ok c => simp [hv, Or.symm h]
      | error e => simp [hv]
    · rw [if_neg h]
      simp only [Except.error.injEq]
      constructor
      · rintro ⟨c, hc⟩
        exact absurd hc (by simp)
      · rintro ⟨hperm, _⟩
        exact absurd (Or.symm hperm) h

/-- C3 witness: a handle opened write-only is refused reading with EBADF, a handle
opened read-write delegates both calls to the engine, and the read result matches
the engine count. -/
theorem claim_C3_witness :
    (FileResource.read
      { path := "f", block := 7, flags := O_WRONLY, seek := 3, uid := 1 } 16
      (fun _ _ _ => .ok 16) = (.error EBADF,
        { path := "f", block := 7, flags := O_WRONLY, seek := 3, uid := 1 })) ∧
    (FileResource.read
      { path := "f", block := 7, flags := O_RDWR, seek := 3, uid := 1 } 16
      (fun _ _ _ => .ok 16)).1 = .ok 16 := by
  constructor
  · exact ((claim_C3_access_gating
      { path := "f", block := 7, flags := O_WRONLY, seek := 3, uid := 1 } 16 0 0
      (fun _ _ _ => .ok 16) (fun _ _ _ => .ok 16)
      (fun _ _ _ _ _ => .ok 0) (fun _ _ _ _ _ => .ok 0)).2.1 (by decide)).1
  · exact (claim_C3_access_gating
      { path := "f", block := 7, flags := O_RDWR, seek := 3, uid := 1 } 16 0 0
      (fun _ _ _ => .ok 16) (fun _ _ _ => .ok 16)
      (fun _ _ _ _ _ => .ok 0) (fun _ _ _ _ _ => .ok 0)).1 (by decide)

/-- C9: for every FileResource, an erroring read or write leaves the handle
unchanged, and a successful one changes only the cursor, advancing it by exactly
the returned count (modulo u64 wrap-around, which is absent whenever the sum stays
below 2^64). -/
theorem claim_C9_cursor (r : FileResource) (bufLen nowSec nowNsec : Nat)
    (rn : Nat → Nat → Nat → Except Nat Nat)
    (wn : Nat → Nat → Nat → Nat → Nat → Except Nat Nat) :
    (∀ e, (FileResource.read r bufLen rn).1 = .error e →
      (FileResource.read r bufLen rn).2 = r) ∧
    (∀ count, (FileResource.read r bufLen rn).1 = .ok count →
      (FileResource.read r bufLen rn).2 = { r with seek := (r.seek + count) % M } ∧
      (r.seek + count < M → (FileResource.read r bufLen rn).2.seek = r.seek + count)) ∧
    (∀ e, (FileResource.write r bufLen nowSec nowNsec wn).1 = .error e →
      (FileResource.write r bufLen nowSec nowNsec wn).2 = r) ∧
    (∀ count, (FileResource.write r bufLen nowSec nowNsec wn).1 = .ok count →
      (FileResource.write r bufLen nowSec nowNsec wn).2 =
        { r with seek := (r.seek + count) % M } ∧
      (r.seek + count < M →
        (FileResource.write r bufLen nowSec nowNsec wn).2.seek = r.seek + count)) := by
  unfold FileResource.read FileResource.write
  refine ⟨?_, ?_, ?_, ?_⟩
  · intro e he
    split at he
    · cases hv : rn r.block r.seek bufLen <;> simp_all
    · simp_all
  · intro count hc
    split at hc
    · cases hv : rn r.block r.seek bufLen with
      | ok c => simp_all [Nat.mod_eq_of_lt]
      | error e => simp_all
    · simp_all [EBADF]
  · intro e he
    split at he
    · cases hv : wn r.block r.seek bufLen nowSec nowNsec <;> simp_all
    · simp_all
  · intro count hc
    split at hc
    · cases hv : wn r.block r.seek bufLen nowSec nowNsec with
      | ok c => simp_all [Nat.mod_eq_of_lt]
      | error e => simp_all
    · simp_all [EBADF]

/-- C9 witness: a concrete successful read advances the cursor from 3 by the count
10 returned by the engine, and a concrete engine error leaves the handle unchanged. -/
theorem claim_C9_witness :
    (FileResource.read
      { path := "f", block := 7, flags := O_RDONLY, seek := 3, uid := 1 } 16
      (fun _ _ _ => .ok 10)).2.seek = 13 ∧
    (FileResource.read
      { path := "f", block := 7, flags := O_RDONLY, seek := 3, uid := 1 } 16
      (fun _ _ _ => .error EIO)).2 =
      { path := "f", block := 7, flags := O_RDONLY, seek := 3, uid := 1 } := by
  constructor
  · exact ((claim_C9_cursor
      { path := "f", block := 7, flags := O_RDONLY, seek := 3, uid := 1 } 16 0 0
      (fun _ _ _ => .ok 10) (fun _ _ _ _ _ => .ok 0)).2.1 10 rfl).2
      (by norm_num [M])
  · exact (claim_C9_cursor
      { path := "f", block := 7, flags := O_RDONLY, seek := 3, uid := 1 } 16 0 0
      (fun _ _ _ => .error EIO) (fun _ _ _ _ _ => .ok 0)).1 EIO rfl

/-- C5: for every FileResource, seek with whence SEEK_SET, SEEK_CUR or SEEK_END
computes the new cursor with i64 arithmetic clamped below at 0 and with no upper
bound at the file size (a SEEK_SET beyond the size lands the cursor beyond the
size), and any other whence value returns EINVAL leaving the cursor unchanged. -/
theorem claim_C5_seek (r : FileResource) (offset whence size : Nat)
    (node_len : Nat → Except Nat Nat) (hlen : node_len r.block = .ok size) :
    (whence = SEEK_SET →
      FileResource.lseek r offset whence node_len =
        (.ok ((max 0 (toI64 offset)).toNat % M),
         { r with seek := (max 0 (toI64 offset)).toNat })) ∧
    (whence = SEEK_CUR →
      FileResource.lseek r offset whence node_len =
        (.ok ((max 0 (wrapI64 (toI64 r.seek + toI64 offset))).toNat % M),
         { r with seek := (max 0 (wrapI64 (toI64 r.seek + toI64 offset))).toNat })) ∧
    (whence = SEEK_END →
      FileResource.lseek r offset whence node_len =
        (.ok ((max 0 (wrapI64 (toI64 size + toI64 offset))).toNat % M),
         { r with seek := (max 0 (wrapI64 (toI64 size + toI64 offset))).toNat })) ∧
    (whence = SEEK_SET → size < offset → offset < 2 ^ 63 →
      size < (FileResource.lseek r offset whence node_len).2.seek) ∧
    (¬(whence = SEEK_SET ∨ whence = SEEK_CUR ∨ whence = SEEK_END) →
      FileResource.lseek r offset whence node_len = (.error EINVAL, r)) := by
  unfold FileResource.lseek
  rw [hlen]
  dsimp only
  refine ⟨?_, ?_, ?_, ?_, ?_⟩
  · intro h
    rw [if_pos h]
  · intro h
    rw [if_neg (by simp [h, SEEK_CUR, SEEK_SET]), if_pos h]
  · intro h
    rw [if_neg (by simp [h, SEEK_END, SEEK_SET]), if_neg (by simp [h, SEEK_END, SEEK_CUR]),
      if_pos h]
  · intro h hs ho
    rw [if_pos h]
    have hoff : toI64 offset = (offset : Int) := by
      simp only [toI64, M_val]
      rw [if_pos (by omega)]
      omega
    simp only [hoff]
    rw [max_eq_right (by positivity)]
    simpa using hs
  · intro h
    rw [if_neg (fun hc => h (Or.inl hc)), if_neg (fun hc => h (Or.inr (Or.inl hc))),
      if_neg (fun hc => h (Or.inr (Or.inr hc)))]

/-- C5 witness: with a file of size 10, SEEK_SET to 100 puts the cursor at 100 —
past the size — and whence 7 yields EINVAL with the cursor still at 3. -/
theorem claim_C5_witness :
    10 < (FileResource.lseek
      { path := "f", block := 7, flags := O_RDWR, seek := 3, uid := 1 } 100 SEEK_SET
      (fun _ => .ok 10)).2.seek ∧
    FileResource.lseek
      { path := "f", block := 7, flags := O_RDWR, seek := 3, uid := 1 } 100 7
      (fun _ => .ok 10) =
      (.error EINVAL, { path := "f", block := 7, flags := O_RDWR, seek := 3, uid := 1 }) := by
  constructor
  · exact (claim_C5_seek
      { path := "f", block := 7, flags := O_RDWR, seek := 3, uid := 1 } 100 SEEK_SET 10
      (fun _ => .ok 10) rfl).2.2.2.1 rfl (by norm_num) (by norm_num)
  · exact (claim_C5_seek
      { path := "f", block := 7, flags := O_RDWR, seek := 3, uid := 1 } 100 7 10
      (fun _ => .ok 10) rfl).2.2.2.2 (by decide)

/-- C6: for every FileResource, fcntl F_GETFL returns the flags unchanged; F_SETFL
succeeds, keeps exactly the O_ACCMODE bits of the old flags, takes every other bit
from the argument and changes no other field; any other command returns EINVAL; and
the access mode bits flags & O_ACCMODE are invariant under every sequence of
resource operations on the handle. -/
theorem claim_C6_fcntl (r : FileResource) (cmd arg : Nat) (ops : List FileOp) :
    (FileResource.fcntl r F_GETFL arg = (.ok r.flags, r)) ∧
    ((FileResource.fcntl r F_SETFL arg).1 = .ok 0 ∧
     (FileResource.fcntl r F_SETFL arg).2.flags &&& O_ACCMODE = r.flags &&& O_ACCMODE ∧
     (FileResource.fcntl r F_SETFL arg).2.flags &&& NOT_ACCMODE = arg &&& NOT_ACCMODE ∧
     (FileResource.fcntl r F_SETFL arg).2.path = r.path ∧
     (FileResource.fcntl r F_SETFL arg).2.block = r.block ∧
     (FileResource.fcntl r F_SETFL arg).2.seek = r.seek ∧
     (FileResource.fcntl r F_SETFL arg).2.uid = r.uid) ∧
    (cmd ≠ F_GETFL → cmd ≠ F_SETFL →
      FileResource.fcntl r cmd arg = (.error EINVAL, r)) ∧
    ((ops.foldl (fun s op => FileOp.apply op s) r).flags &&& O_ACCMODE =
      r.flags &&& O_ACCMODE) := by
  refine ⟨?_, ?_, ?_, ?_⟩
  · rfl
  · refine ⟨rfl, ?_, ?_, rfl, rfl, rfl, rfl⟩
    · exact setfl_keeps_accmode r.flags arg
    · exact setfl_takes_rest r.flags arg
  · intro h1 h2
    unfold FileResource.fcntl
    rw [if_neg h1, if_neg h2]
  · induction ops generalizing r with
    | nil => rfl
    | cons op rest ih =>
      calc (List.foldl (fun s op => FileOp.apply op s) r (op :: rest)).flags &&& O_ACCMODE
          = (FileOp.apply op r).flags &&& O_ACCMODE := ih (FileOp.apply op r)
        _ = r.flags &&& O_ACCMODE := fileOp_apply_flags op r

/-- C6 witness: fcntl F_SETFL with an argument whose access-mode bits differ keeps
the handle's read-write access mode while taking the argument's other bits, and
fcntl with command 9 is EINVAL. -/
theorem claim_C6_witness :
    ((FileResource.fcntl
      { path := "f", block := 7, flags := O_RDWR, seek := 3, uid := 1 }
      F_SETFL 0x10004).2.flags &&& O_ACCMODE = O_RDWR ∧
     (FileResource.fcntl
      { path := "f", block := 7, flags := O_RDWR, seek := 3, uid := 1 }
      9 0).1 = .error EINVAL) := by
  constructor
  · have h := (claim_C6_fcntl
      { path := "f", block := 7, flags := O_RDWR, seek := 3, uid := 1 } 9 0x10004 []).2.1.2.1
    simpa [O_RDWR, O_ACCMODE] using h
  · have h := (claim_C6_fcntl
      { path := "f", block := 7, flags := O_RDWR, seek := 3, uid := 1 } 9 0 []).2.2.1
      (by decide) (by decide)
    rw [h]

theorem dirRead_some (r : DirResource) (bufLen : Nat) (d : List Nat)
    (hd : r.data = some d) :
    DirResource.read r bufLen =
      .ok (min bufLen (d.length - r.seek), (d.drop r.seek).take bufLen,
           { r with seek := r.seek + min bufLen (d.length - r.seek) }) := by
  unfold DirResource.read
  rw [hd]
  dsimp only
  rw [copyFromData_eq]
  have hl : ((d.drop r.seek).take bufLen).length = min bufLen (d.length - r.seek) := by
    simp [List.length_take, List.length_drop]
  rw [hl]

theorem clamp_le (len : Nat) (x : Int) : (max 0 (min (toI64 len) x)).toNat ≤ len := by
  have h3 : toI64 len ≤ (len : Int) := by
    simp only [toI64, M_val]
    split <;> omega
  rcases le_or_lt (min (toI64 len) x) 0 with h | h
  · rw [max_eq_left h]
    simp
  · rw [max_eq_right h.le]
    calc (min (toI64 len) x).toNat ≤ (toI64 len).toNat :=
          Int.toNat_le_toNat (min_le_left _ _)
      _ ≤ ((len : Int)).toNat := Int.toNat_le_toNat h3
      _ = len := by simp

theorem dirLseek_preserves (r : DirResource) (offset whence : Nat) (d : List Nat)
    (hd : r.data = some d) (hseek : r.seek ≤ d.length) :
    (DirResource.lseek r offset whence).2.seek ≤ d.length ∧
    (DirResource.lseek r offset whence).2.data = some d := by
  unfold DirResource.lseek
  rw [hd]
  dsimp only
  split
  · exact ⟨clamp_le d.length _, rfl⟩
  · split
    · exact ⟨clamp_le d.length _, rfl⟩
    · split
      · exact ⟨clamp_le d.length _, rfl⟩
      · exact ⟨hseek, hd⟩

/-- C7: for every DirResource and every buffer, read returns EISDIR exactly when the
data field is absent; when data is present it copies the bytes of data starting at
the seek cursor, advances the cursor by the number of bytes copied and returns that
count. -/
theorem claim_C7_dir_read (r : DirResource) (bufLen : Nat) :
    (DirResource.read r bufLen = .error EISDIR ↔ r.data = none) ∧
    (∀ d, r.data = some d →
      DirResource.read r bufLen =
        .ok (min bufLen (d.length - r.seek), (d.drop r.seek).take bufLen,
             { r with seek := r.seek + min bufLen (d.length - r.seek) })) := by
  constructor
  · constructor
    · intro h
      cases hd : r.data with
      | none => rfl
      | some d =>
        rw [dirRead_some r bufLen d hd] at h
        exact absurd h (by simp)
    · intro h
      unfold DirResource.read
      rw [h]
  · intro d hd
    exact dirRead_some r bufLen d hd

/-- C7 witness: with data [10, 11, 12, 13, 14] and the cursor at 1, a read into a
2-byte buffer returns count 2, copies bytes 11 and 12, and moves the cursor to 3;
with the data field absent the read is EISDIR. -/
theorem claim_C7_witness :
    DirResource.read
      { path := "d", block := 2, data := some [10, 11, 12, 13, 14], seek := 1 } 2 =
      .ok (2, [11, 12],
        { path := "d", block := 2, data := some [10, 11, 12, 13, 14], seek := 3 }) ∧
    DirResource.read { path := "d", block := 2, data := none, seek := 0 } 2 =
      .error EISDIR := by
  constructor
  · have h := (claim_C7_dir_read
      { path := "d", block := 2, data := some [10, 11, 12, 13, 14], seek := 1 } 2).2
      [10, 11, 12, 13, 14] rfl
    simpa using h
  · exact (claim_C7_dir_read
      { path := "d", block := 2, data := none, seek := 0 } 2).1.mpr rfl

/-- C10: for every DirResource whose data is present, the cursor invariant
seek ≤ data.length holds after construction and is preserved by read, by seek with
any whence and offset, and by dup; under the invariant a read never fails and
returns exactly min(buffer length, data.length - seek) bytes. -/
theorem claim_C10_dir_invariant (p : String) (b : Nat) (d : List Nat)
    (r : DirResource) (bufLen offset whence : Nat) :
    ((DirResource.new p b (some d)).seek = 0 ∧
     (DirResource.new p b (some d)).seek ≤ d.length) ∧
    (r.data = some d → r.seek ≤ d.length →
      (DirResource.read r bufLen =
         .ok (min bufLen (d.length - r.seek), (d.drop r.seek).take bufLen,
              { r with seek := r.seek + min bufLen (d.length - r.seek) }) ∧
       r.seek + min bufLen (d.length - r.seek) ≤ d.length) ∧
      ((DirResource.lseek r offset whence).2.seek ≤ d.length ∧
       (DirResource.lseek r offset whence).2.data = some d) ∧
      (r.dup.seek ≤ d.length ∧ r.dup.data = some d)) := by
  refine ⟨⟨rfl, Nat.zero_le _⟩, ?_⟩
  intro hd hseek
  refine ⟨⟨dirRead_some r bufLen d hd, by omega⟩, dirLseek_preserves r offset whence d hd hseek, hseek, hd⟩

/-- C10 witness: on data [5, 6, 7] with the cursor at the boundary 3, a 4-byte read
succeeds with count 0 keeping the invariant, and a SEEK_END seek keeps the cursor
within bounds. -/
theorem claim_C10_witness :
    DirResource.read { path := "d", block := 2, data := some [5, 6, 7], seek := 3 } 4 =
      .ok (0, [], { path := "d", block := 2, data := some [5, 6, 7], seek := 3 }) ∧
    (DirResource.lseek
      { path := "d", block := 2, data := some [5, 6, 7], seek := 3 } 9 SEEK_END).2.seek ≤ 3 := by
  constructor
  · have h := ((claim_C10_dir_invariant "d" 2 [5, 6, 7]
      { path := "d", block := 2, data := some [5, 6, 7], seek := 3 } 4 9 SEEK_END).2
      rfl (by norm_num)).1.1
    simpa using h
  · exact ((claim_C10_dir_invariant "d" 2 [5, 6, 7]
      { path := "d", block := 2, data := some [5, 6, 7], seek := 3 } 4 9 SEEK_END).2
      rfl (by norm_num)).2.1.1

/-- C4: for every FileResource, utimens is permitted exactly when the node's uid
matches the handle's uid or the handle is root (uid 0), failing EBADF otherwise
untouched by the engine write; when permitted and times has a second entry, that
entry's seconds and nanoseconds are written to the node as mtime through the engine
and the engine outcome is returned; when permitted and the second entry is missing
it succeeds without any engine write (the outcome is the same for any two write
functions). -/
theorem claim_C4_utimens (r : FileResource) (times : List TimeSpec) (b : Nat)
    (node : Node) (na : Nat → Except Nat (Nat × Node))
    (wa wa' : Nat → Node → Except Nat Unit)
    (hna : na r.block = .ok (b, node)) :
    (¬(node.uid = r.uid ∨ r.uid = 0) →
      FileResource.utimens r times na wa = (.error EBADF, r)) ∧
    ((node.uid = r.uid ∨ r.uid = 0) → ∀ t, times.get? 1 = some t →
      (∀ u, wa b { node with
          mtime := (t.tv_sec % (M : Int)).toNat,
          mtime_nsec := (t.tv_nsec % (2 ^ 32 : Int)).toNat } = .ok u →
        FileResource.utimens r times na wa = (.ok 0, r)) ∧
      (∀ e, wa b { node with
          mtime := (t.tv_sec % (M : Int)).toNat,
          mtime_nsec := (t.tv_nsec % (2 ^ 32 : Int)).toNat } = .error e →
        FileResource.utimens r times na wa = (.error e, r))) ∧
    ((node.uid = r.uid ∨ r.uid = 0) → times.get? 1 = none →
      FileResource.utimens r times na wa = (.ok 0, r) ∧
      FileResource.utimens r times na wa = FileResource.utimens r times na wa') := by
  unfold FileResource.utimens
  rw [hna]
  dsimp only
  refine ⟨?_, ?_, ?_⟩
  · intro h
    rw [if_neg h]
  · intro h t ht
    rw [if_pos h, ht]
    dsimp only
    constructor
    · intro u hu
      rw [hu]
    · intro e he
      rw [he]
  · intro h ht
    rw [if_pos h, if_pos h, ht]
    exact ⟨rfl, rfl⟩

/-- C4 witness: a matching-uid handle with a two-entry times list writes the second
entry as mtime (the engine write succeeds, so utimens returns 0), and a
non-matching non-root handle gets EBADF. -/
theorem claim_C4_witness :
    FileResource.utimens
      { path := "f", block := 7, flags := O_RDWR, seek := 0, uid := 4 }
      [⟨1, 2⟩, ⟨100, 200⟩] (fun _ => .ok (7, nodeB)) (fun _ _ => .ok ()) =
      (.ok 0, { path := "f", block := 7, flags := O_RDWR, seek := 0, uid := 4 }) ∧
    FileResource.utimens
      { path := "f", block := 7, flags := O_RDWR, seek := 0, uid := 5 }
      [⟨1, 2⟩, ⟨100, 200⟩] (fun _ => .ok (7, nodeB)) (fun _ _ => .ok ()) =
      (.error EBADF, { path := "f", block := 7, flags := O_RDWR, seek := 0, uid := 5 }) := by
  constructor
  · exact (((claim_C4_utimens
      { path := "f", block := 7, flags := O_RDWR, seek := 0, uid := 4 }
      [⟨1, 2⟩, ⟨100, 200⟩] 7 nodeB
      (fun _ => .ok (7, nodeB)) (fun _ _ => .ok ()) (fun _ _ => .ok ()) rfl).2.1
      (Or.inl rfl) ⟨100, 200⟩ rfl).1 () rfl)
  · exact ((claim_C4_utimens
      { path := "f", block := 7, flags := O_RDWR, seek := 0, uid := 5 }
      [⟨1, 2⟩, ⟨100, 200⟩] 7 nodeB
      (fun _ => .ok (7, nodeB)) (fun _ _ => .ok ()) (fun _ _ => .ok ()) rfl).1 (by decide))

theorem readdirChildren_map_ino (hb i : Nat) (cs : List (Nat × Node)) :
    (readdirChildren hb i cs).map DirEntry.ino = cs.map (fun c => u64sub c.1 hb) := by
  induction cs generalizing i with
  | nil => rfl
  | cons c rest ih => simp [readdirChildren, ih]

/-- C1 amended: block_inode and inode_block are mutually inverse on u64 values and
send the root block to inode 1; lookup, getattr, setattr, create and mkdir all
report the inode block_inode of the node's block; readdir instead reports
block - header_block (for ".", ".." and every child), which agrees with block_inode
exactly when the root block sits right after the header block. -/
theorem claim_C1_amended (fs : FileSystem) (ino b : Nat) (name : String)
    (children : List (Nat × Node)) (mode uid gid : Option Nat) (size : Option Nat)
    (atime mtime : Option (Int × Int)) (flags : Option Nat) :
    (b < M → fs.inode_block (fs.block_inode b) = b) ∧
    (fs.header.root < M → fs.block_inode fs.header.root = 1) ∧
    (∀ bk nd, fs.find_node name (fs.inode_block ino) = .ok (bk, nd) →
      ∃ a, fs.lookup ino name = .ok a ∧ a.ino = fs.block_inode bk) ∧
    (∀ bk nd, fs.node_at (fs.inode_block ino) = .ok (bk, nd) →
      (∃ a, (fs.getattr ino).1 = .ok a ∧ a.ino = fs.block_inode bk) ∧
      (∃ a, (fs.setattr ino mode uid gid size atime mtime flags).1 = .ok a ∧
        a.ino = fs.block_inode bk)) ∧
    (∀ bk nd, fs.create_node Node.MODE_FILE name (fs.inode_block ino) = .ok (bk, nd) →
      ∃ a, fs.create ino name = .ok a ∧ a.ino = fs.block_inode bk) ∧
    (∀ bk nd, fs.create_node Node.MODE_DIR name (fs.inode_block ino) = .ok (bk, nd) →
      ∃ a, fs.mkdir ino name = .ok a ∧ a.ino = fs.block_inode bk) ∧
    (fs.child_nodes (fs.inode_block ino) = .ok children →
      fs.readdir ino 0 =
        .ok ({ ino := u64sub (fs.inode_block ino) fs.headerBlock, offset := 0,
               kind := FileType.Directory, name := "." } ::
             { ino := u64sub (fs.inode_block ino) fs.headerBlock, offset := 1,
               kind := FileType.Directory, name := ".." } ::
             readdirChildren fs.headerBlock 2 children) ∧
      (readdirChildren fs.headerBlock 2 children).map DirEntry.ino =
        children.map (fun c => u64sub c.1 fs.headerBlock)) ∧
    (fs.header.root = fs.headerBlock + 1 → fs.headerBlock + 1 < M →
      ∀ c < M, u64sub c fs.headerBlock = fs.block_inode c) := by
  refine ⟨?_, ?_, ?_, ?_, ?_, ?_, ?_, ?_⟩
  · intro hb
    rw [M_val] at hb
    simp only [FileSystem.inode_block, FileSystem.block_inode, u64add, u64sub, M_val]
    omega
  · intro hr
    rw [M_val] at hr
    simp only [FileSystem.block_inode, u64add, u64sub, M_val]
    omega
  · intro bk nd h
    unfold FileSystem.lookup
    dsimp only
    rw [h]
    exact ⟨_, rfl, rfl⟩
  · intro bk nd h
    constructor
    · unfold FileSystem.getattr
      rw [h]
      exact ⟨_, rfl, rfl⟩
    · unfold FileSystem.setattr
      rw [h]
      exact ⟨_, rfl, rfl⟩
  · intro bk nd h
    unfold FileSystem.create
    dsimp only
    rw [h]
    exact ⟨_, rfl, rfl⟩
  · intro bk nd h
    unfold FileSystem.mkdir
    dsimp only
    rw [h]
    exact ⟨_, rfl, rfl⟩
  · intro h
    unfold FileSystem.readdir
    dsimp only
    rw [h]
    exact ⟨rfl, readdirChildren_map_ino fs.headerBlock 2 children⟩
  · intro hroot hlt c hc
    simp only [FileSystem.block_inode, u64add, u64sub, M_val, hroot] at *
    omega

/-- C1 counterexample: on the fixture filesystem whose header sits at block 2 while
the root directory node is at block 4, readdir of the root (inode 1) reports inode 4
for the child at block 6, but block_inode of block 6 is 3, so the inodes emitted by
readdir differ from block_inode of the child's block. -/
theorem claim_C1_counterexample :
    fsA.readdir 1 0 =
      .ok [{ ino := 2, offset := 0, kind := FileType.Directory, name := "." },
           { ino := 2, offset := 1, kind := FileType.Directory, name := ".." },
           { ino := 4, offset := 2, kind := FileType.RegularFile, name := "a" }] ∧
    fsA.block_inode 6 = 3 ∧ (4 : Nat) ≠ 3 := by
  refine ⟨rfl, rfl, by decide⟩

/-- C1 witness: the inverse maps and the root inode evaluated on the fixture
filesystem, and the agreement of the readdir offset with block_inode on a
filesystem whose root block is header block + 1. -/
theorem claim_C1_witness :
    fsA.inode_block (fsA.block_inode 5) = 5 ∧
    fsA.block_inode fsA.header.root = 1 ∧
    fsA.readdir 1 0 =
      .ok ({ ino := u64sub (fsA.inode_block 1) fsA.headerBlock, offset := 0,
             kind := FileType.Directory, name := "." } ::
           { ino := u64sub (fsA.inode_block 1) fsA.headerBlock, offset := 1,
             kind := FileType.Directory, name := ".." } ::
           readdirChildren fsA.headerBlock 2 [(6, nodeA)]) := by
  refine ⟨?_, ?_, ?_⟩
  · exact (claim_C1_amended fsA 1 5 "x" [] none none none none none none none).1
      (by norm_num [M])
  · exact (claim_C1_amended fsA 1 5 "x" [] none none none none none none none).2.1
      (by norm_num [fsA, M])
  · exact ((claim_C1_amended fsA 1 5 "x" [(6, nodeA)]
      none none none none none none none).2.2.2.2.2.2.1 rfl).1

/-- C2 counterexample: invoked with no image-path argument, the binary prints the
explanatory message but terminates with exit status 0, not a non-zero status. -/
theorem claim_C2_counterexample :
    (mainRun ["redoxfs"] (fun _ => .ok ()) (.ok ())).1 =
      ["redoxfs: no disk image provided"] ∧
    (mainRun ["redoxfs"] (fun _ => .ok ()) (.ok ())).2 = 0 :=
  ⟨rfl, rfl⟩

/-- C2 amended: a missing image path prints "redoxfs: no disk image provided" and a
missing mountpoint (after both opens succeed) prints "redoxfs: no mount point
provided", and in every case the process terminates normally with exit status 0. -/
theorem claim_C2_amended (args : List String) (imageOpen : String → Except String Unit)
    (fsOpen : Except String Unit) (path : String) :
    (args.get? 1 = none →
      mainRun args imageOpen fsOpen = (["redoxfs: no disk image provided"], 0)) ∧
    (args.get? 1 = some path → imageOpen path = .ok () → fsOpen = .ok () →
      args.get? 2 = none →
      mainRun args imageOpen fsOpen =
        (["redoxfs: opened filesystem " ++ path,
          "redoxfs: no mount point provided"], 0)) ∧
    (mainRun args imageOpen fsOpen).2 = 0 := by
  refine ⟨?_, ?_, ?_⟩
  · intro h
    unfold mainRun
    rw [h]
  · intro h1 h2 h3 h4
    unfold mainRun
    rw [h1]
    dsimp only
    rw [h2]
    dsimp only
    rw [h3]
    dsimp only
    rw [h4]
  · unfold mainRun
    cases args.get? 1 with
    | none => rfl
    | some p =>
      dsimp only
      cases imageOpen p with
      | error e => rfl
      | ok u =>
        dsimp only
        cases fsOpen with
        | error e => rfl
        | ok v =>
          dsimp only
          cases args.get? 2 with
          | none => rfl
          | some m => rfl

/-- C2 witness: with an image path but no mountpoint and successful opens, the
binary prints the opened-filesystem line and the no-mount-point message and exits
with status 0. -/
theorem claim_C2_witness :
    mainRun ["redoxfs", "img"] (fun _ => .ok ()) (.ok ()) =
      (["redoxfs: opened filesystem img", "redoxfs: no mount point provided"], 0) :=
  (claim_C2_amended ["redoxfs", "img"] (fun _ => .ok ()) (.ok ()) "img").2.1
    rfl rfl rfl rfl

/-- C8: for every inode and every combination of setattr arguments, the FUSE
setattr replies with exactly the attributes getattr replies for that inode and
leaves the filesystem state — header, free list and node records — unchanged. -/
theorem claim_C8_setattr_frame (fs : FileSystem) (ino : Nat)
    (mode uid gid : Option Nat) (size : Option Nat) (atime mtime : Option (Int × Int))
    (flags : Option Nat) :
    FileSystem.setattr fs ino mode uid gid size atime mtime flags =
      ((FileSystem.getattr fs ino).1, fs) := rfl

end RedoxFS
